import Mathlib

/-!
Verification of `src/Screener.Capture.Blackmagic.Native/DeckLinkFrameHelper.cpp`.

This file gives a shallow embedding of the two exported entry points,
`CopyDeckLinkFrameBytes` and `GetDeckLinkFrameInfo`, and proves/refutes the
frozen claims about them.

Modelling conventions
* The foreign DeckLink frame object (COM interface queries, indexed vtable
  calls, the raw pointer stored at byte offset 280, the bytes behind each
  source pointer, and which foreign calls fault) is an environment record
  `FrameEnv`.  Each `__try/__except` fault site in the source corresponds to a
  Boolean (or, for the chunked loop, per-chunk) fault field of the
  environment; a faulting `memcpy` is modelled as having written an
  environment-chosen prefix of its range before the fault.
* The caller-supplied destination buffer is a function `Nat → Nat` (byte at
  offset); the call produces the ordered list of (offset, value) writes it
  performs on that buffer, the list of offsets the corruption detector reads,
  an event trace (StartAccess/EndAccess on the video-buffer capability, the
  legacy GetBytes call, entry into the raw-offset fallback, and the
  AddRef/Release pair the fallback takes on the frame handle), the tri-state
  result, and the fallback's `bytesCopied` counter.
* Machine integers are modelled as `Nat`/`Int` (geometry values returned by
  the accessors are taken non-negative, as for real frames); `double`
  arithmetic in the corruption detector is modelled exactly over `ℚ`.
* The `DebugLog` calls, the diagnostic-only QueryInterface probes for
  IDeckLinkVideoFrame/IDeckLinkVideoInputFrame (lines 166–186, which only log
  and release), the process-wide frame counters, and the byte-dump blocks
  (lines 262–272, 329–339, 435–559) are omitted: per the spec they are a
  side channel "never part of the functional contract and safe to disable
  entirely without behavior change".
-/

namespace DeckLink

/-- Events observable on the foreign object during one extraction call. -/
inductive Ev
  | startAccess
  | endAccess
  | legacyGetBytes
  | rawFallbackEnter
  | addRef
  | release
  | detectorRun
deriving DecidableEq

/-- Environment: everything the foreign frame object and the fault hardware
decide during one `CopyDeckLinkFrameBytes` call. -/
structure FrameEnv where
  /-- `framePtr == nullptr` (line 143). -/
  framePtrNull : Bool
  /-- `buffer == nullptr` (line 143). -/
  bufferNull : Bool
  /-- `QueryInterface(IID_IUnknown)` succeeds with a non-null pointer (lines 150-163). -/
  qiUnknownOk : Bool
  /-- value returned by the `GetWidth` accessor, vtable slot 3 (line 202). -/
  width : Nat
  /-- value returned by the `GetHeight` accessor, vtable slot 4 (line 203). -/
  height : Nat
  /-- value returned by the `GetRowBytes` accessor, vtable slot 5 (line 204). -/
  rowBytes : Nat
  /-- value returned by the `GetPixelFormat` accessor, vtable slot 6 (line 205). -/
  pixelFormat : Nat
  /-- some accessor call in the metadata `__try` block faults (lines 200-211). -/
  metadataFaults : Bool
  /-- `QueryInterface(IID_IDeckLinkVideoBuffer)` succeeds with non-null pointer (lines 222-232). -/
  qiVideoBuffer : Bool
  /-- `startAccess(videoBuffer, bmdBufferAccessRead)` returns a success HRESULT (line 252). -/
  startAccessOk : Bool
  /-- video-buffer `getBytes` returns success and a non-null pointer (lines 255-256). -/
  modernGetBytesOk : Bool
  /-- the `memcpy` at line 259 faults. -/
  modernCopyFaults : Bool
  /-- number of bytes a faulting modern `memcpy` wrote before the fault. -/
  modernFaultLen : Nat
  /-- bytes behind the pointer produced by the video-buffer `getBytes`. -/
  modernSrc : Nat → Nat
  /-- `QueryInterface(IID_IDeckLinkVideoInputFrame_v14_2_1)` succeeds, non-null (lines 298-308). -/
  qiLegacy : Bool
  /-- legacy `getBytes` (vtable slot 8) returns success and a non-null pointer (lines 322-323). -/
  legacyGetBytesOk : Bool
  /-- the `memcpy` at line 326 faults. -/
  legacyCopyFaults : Bool
  /-- number of bytes a faulting legacy `memcpy` wrote before the fault. -/
  legacyFaultLen : Nat
  /-- bytes behind the pointer produced by the legacy `getBytes`. -/
  legacySrc : Nat → Nat
  /-- the pointer value stored at byte offset 280 of the frame object (line 362); 0 = null. -/
  rawPtrVal : Nat
  /-- the bulk `memcpy` at line 395 faults. -/
  bulkCopyFaults : Bool
  /-- number of bytes the faulting bulk `memcpy` wrote before the fault. -/
  bulkFaultLen : Nat
  /-- whether the chunk `memcpy` at line 406 faults, per chunk index. -/
  chunkFaults : Nat → Bool
  /-- number of bytes a faulting chunk `memcpy` wrote before the fault, per chunk index. -/
  chunkFaultLen : Nat → Nat
  /-- bytes behind the raw offset-280 pointer. -/
  rawSrc : Nat → Nat

/-- Outcome of the modern (video-buffer) or legacy extraction path. -/
structure PathOut where
  ok : Bool
  writes : List (Nat × Nat)
  events : List Ev

/-- Outcome of the raw-offset fallback. -/
structure FallOut where
  result : Int
  writes : List (Nat × Nat)
  events : List Ev
  reads : List Nat
  bytesCopied : Nat

/-- Full outcome of one `CopyDeckLinkFrameBytes` call: the tri-state result,
the ordered destination writes, the event trace, the offsets the corruption
detector read from the destination, and the fallback's `bytesCopied`. -/
structure Outcome where
  result : Int
  writes : List (Nat × Nat)
  events : List Ev
  reads : List Nat
  fallbackBytesCopied : Nat

/-- Replay a list of (offset, value) writes onto a buffer state. -/
def applyWrites (d : Nat → Nat) (ws : List (Nat × Nat)) : Nat → Nat :=
  ws.foldl (fun f w => Function.update f w.1 w.2) d

/-- The writes performed by `memcpy(dst + base, src + base, len)` where the
destination and source offsets coincide (all copies in the source copy from
offset 0, and the chunked loop copies `src + pos → dst + pos`). -/
def copyWrites (src : Nat → Nat) (base len : Nat) : List (Nat × Nat) :=
  (List.range len).map fun j => (base + j, src (base + j))

/-- The writes of the neutral-fill loop (lines 413-420): starting at the
chunk base, step 4, while `i < len`, write the UYVY black pattern
`0x80 0x10 0x80 0x10`.  The loop body writes `i .. i+3`, so a `len` that is
not a multiple of 4 is rounded up. -/
def fillWrites (base len : Nat) : List (Nat × Nat) :=
  (List.range ((len + 3) / 4)).flatMap fun q =>
    [(base + 4 * q, 0x80), (base + 4 * q + 1, 0x10),
     (base + 4 * q + 2, 0x80), (base + 4 * q + 3, 0x10)]

/-- `const int chunkSize = 65536` (line 391). -/
def chunkSz : Nat := 65536

/-- Number of iterations of the chunk loop `for (pos = 0; pos < n; pos += chunkSz)`. -/
def numChunks (n : Nat) : Nat := (n + chunkSz - 1) / chunkSz

/-- `thisChunk` for chunk `i` (line 403). -/
def chunkLen (n i : Nat) : Nat := min chunkSz (n - i * chunkSz)

/-- Destination writes of chunk `i` of the fallback's chunked copy
(lines 401-422): on success the chunk's bytes from the raw source; on a fault,
the prefix written before the fault and then the whole chunk neutral-filled. -/
def chunkWrites (env : FrameEnv) (n i : Nat) : List (Nat × Nat) :=
  if env.chunkFaults i then
    copyWrites env.rawSrc (i * chunkSz) (min (env.chunkFaultLen i) (chunkLen n i)) ++
      fillWrites (i * chunkSz) (chunkLen n i)
  else
    copyWrites env.rawSrc (i * chunkSz) (chunkLen n i)

/-- All destination writes of the chunked copy, in loop order. -/
def chunkedWrites (env : FrameEnv) (n : Nat) : List (Nat × Nat) :=
  (List.range (numChunks n)).flatMap (chunkWrites env n)

/-- The `bytesCopied` accumulator after the chunked copy: only chunks whose
`memcpy` did not fault are counted (line 407). -/
def chunkedBytesCopied (env : FrameEnv) (n : Nat) : Nat :=
  ((List.range (numChunks n)).map fun i =>
    if env.chunkFaults i then 0 else chunkLen n i).sum

/-- `const int samples = 2048` (line 81). -/
def samples : Nat := 2048

/-- The byte offset sampled by detector iteration `i` (lines 92-96):
`y = (i*131) % height`, `x = ((i*337) % (width*2 - 4)) & ~3`,
`offset = y*rowBytes + x`.  Clearing the two low bits is `x / 4 * 4`. -/
def detSampleOff (width height rowBytes i : Nat) : Nat :=
  ((i * 131) % height) * rowBytes + ((i * 337) % (width * 2 - 4)) / 4 * 4

/-- The destination offsets read by the corruption detector, in order:
each sampled group reads 4 consecutive bytes (lines 97-100). -/
def detReadOffsets (width height rowBytes : Nat) : List Nat :=
  (List.range samples).flatMap fun i =>
    [detSampleOff width height rowBytes i, detSampleOff width height rowBytes i + 1,
     detSampleOff width height rowBytes i + 2, detSampleOff width height rowBytes i + 3]

/-- Welford online mean/variance update (lines 68-75), exact over `ℚ`. -/
def UpdateStats (v : Nat) (mean m2v : ℚ) (i : Nat) : ℚ × ℚ :=
  let x : ℚ := (v : ℚ)
  let delta := x - mean
  let mean2 := mean + delta / ((i : ℚ) + 1)
  let delta2 := x - mean2
  (mean2, m2v + delta * delta2)

/-- Per-lane accumulator state of the detector loop: saturation counts
`c0FF..c3FF`, running means `m0..m3` and M2 sums `s0..s3` (lines 85-87). -/
structure DetStat where
  c0 : Nat
  c1 : Nat
  c2 : Nat
  c3 : Nat
  m0 : ℚ
  m1 : ℚ
  m2 : ℚ
  m3 : ℚ
  s0 : ℚ
  s1 : ℚ
  s2 : ℚ
  s3 : ℚ

/-- One iteration of the detector's sampling loop (lines 90-112). -/
def detStep (p : Nat → Nat) (width height rowBytes : Nat) (st : DetStat) (i : Nat) : DetStat :=
  let off := detSampleOff width height rowBytes i
  let b0 := p off
  let b1 := p (off + 1)
  let b2 := p (off + 2)
  let b3 := p (off + 3)
  let u0 := UpdateStats b0 st.m0 st.s0 i
  let u1 := UpdateStats b1 st.m1 st.s1 i
  let u2 := UpdateStats b2 st.m2 st.s2 i
  let u3 := UpdateStats b3 st.m3 st.s3 i
  { c0 := st.c0 + (if b0 = 0xFF then 1 else 0)
    c1 := st.c1 + (if b1 = 0xFF then 1 else 0)
    c2 := st.c2 + (if b2 = 0xFF then 1 else 0)
    c3 := st.c3 + (if b3 = 0xFF then 1 else 0)
    m0 := u0.1, m1 := u1.1, m2 := u2.1, m3 := u3.1
    s0 := u0.2, s1 := u1.2, s2 := u2.2, s3 := u3.2 }

/-- The corruption detector (lines 79-137): sample 2048 aligned 4-byte groups
of the copied buffer, accumulate per-lane saturation counts and Welford
mean/variance, and flag the buffer when the fourth lane looks like a BGRA
alpha channel. -/
def LooksLikeCorruptBGRA (p : Nat → Nat) (width height rowBytes : Nat) : Bool :=
  let st := (List.range samples).foldl (detStep p width height rowBytes)
    ⟨0, 0, 0, 0, 0, 0, 0, 0, 0, 0, 0, 0⟩
  let p0 : ℚ := (st.c0 : ℚ) / (samples : ℚ)
  let p1 : ℚ := (st.c1 : ℚ) / (samples : ℚ)
  let p2 : ℚ := (st.c2 : ℚ) / (samples : ℚ)
  let p3 : ℚ := (st.c3 : ℚ) / (samples : ℚ)
  let maxOther := if p0 > p1 then p0 else p1
  let maxOther := if p2 > maxOther then p2 else maxOther
  let alphaBias := p3 - maxOther
  let var0 := st.s0 / ((samples : ℚ) - 1)
  let var1 := st.s1 / ((samples : ℚ) - 1)
  let var2 := st.s2 / ((samples : ℚ) - 1)
  let var3 := st.s3 / ((samples : ℚ) - 1)
  let varY := var1 + var3
  let varUV := var0 + var2
  let suspiciousAlpha := (decide (p3 > 0.20) && decide (alphaBias > 0.10)) || decide (p3 > 0.35)
  let suspiciousVariance := (decide (var3 < 50.0) && decide (p3 > 0.10))
    || decide (varY < varUV * 0.8)
  suspiciousAlpha || suspiciousVariance

/-- The modern video-buffer path (lines 222-294).  `copySize` is
`min(bufferSize, rowBytes*height)` (line 258).  On the GetBytes-failure
sub-path `endAccess` still runs (line 279); if the copy `memcpy` faults,
control jumps to the `__except` handler at line 286 and `endAccess` is
skipped. -/
def modernPath (env : FrameEnv) (n : Nat) : PathOut :=
  if env.qiVideoBuffer then
    if env.startAccessOk then
      if env.modernGetBytesOk then
        if env.modernCopyFaults then
          ⟨false, copyWrites env.modernSrc 0 (min env.modernFaultLen (min n (env.rowBytes * env.height))),
           [.startAccess]⟩
        else
          ⟨true, copyWrites env.modernSrc 0 (min n (env.rowBytes * env.height)),
           [.startAccess, .endAccess]⟩
      else ⟨false, [], [.startAccess, .endAccess]⟩
    else ⟨false, [], [.startAccess]⟩
  else ⟨false, [], []⟩

/-- The legacy v14.2.1 path (lines 296-353). -/
def legacyPath (env : FrameEnv) (n : Nat) : PathOut :=
  if env.qiLegacy then
    if env.legacyGetBytesOk then
      if env.legacyCopyFaults then
        ⟨false, copyWrites env.legacySrc 0 (min env.legacyFaultLen (min n (env.rowBytes * env.height))),
         [.legacyGetBytes]⟩
      else
        ⟨true, copyWrites env.legacySrc 0 (min n (env.rowBytes * env.height)),
         [.legacyGetBytes]⟩
    else ⟨false, [], [.legacyGetBytes]⟩
  else ⟨false, [], []⟩

/-- The modern path produces `result == 1` exactly under these conditions. -/
def modernSucceeds (env : FrameEnv) : Bool :=
  env.qiVideoBuffer && env.startAccessOk && env.modernGetBytesOk && !env.modernCopyFaults

/-- The legacy path produces `result == 1` exactly under these conditions. -/
def legacySucceeds (env : FrameEnv) : Bool :=
  env.qiLegacy && env.legacyGetBytesOk && !env.legacyCopyFaults

/-- The offset-280 pointer passes the null and plausible-range checks
(lines 372-383). -/
def ptrGood (env : FrameEnv) : Bool :=
  decide (env.rawPtrVal ≠ 0) && decide (0x10000 ≤ env.rawPtrVal) &&
    decide (env.rawPtrVal < 0x7FFF00000000)

/-- The destination writes of the fallback's copy stage: the bulk `memcpy` of
`bufferSize` bytes (line 395), or — when it faults — its partial prefix
followed by the chunked copy (lines 398-423). -/
def fbWrites (env : FrameEnv) (n : Nat) : List (Nat × Nat) :=
  if env.bulkCopyFaults then
    copyWrites env.rawSrc 0 (min env.bulkFaultLen n) ++ chunkedWrites env n
  else copyWrites env.rawSrc 0 n

/-- The fallback's `bytesCopied` counter (lines 387, 396, 407). -/
def fbBytes (env : FrameEnv) (n : Nat) : Nat :=
  if env.bulkCopyFaults then chunkedBytesCopied env n else n

/-- The fallback's `isCorrupt` flag (lines 429-433): the detector runs, on
the destination buffer after the copy stage, only when more than half the
requested bytes were copied. -/
def fbCorrupt (env : FrameEnv) (n : Nat) (d1 : Nat → Nat) : Bool :=
  if n / 2 < fbBytes env n then
    LooksLikeCorruptBGRA (applyWrites d1 (fbWrites env n)) env.width env.height env.rowBytes
  else false

/-- The raw-offset fallback (lines 355-568).  `d1` is the destination buffer
state at fallback entry.  `AddRef` at line 359, pointer read at line 362,
null check at 372, range check at 379, the copy stage (`fbWrites`,
`fbBytes`), corruption detection (`fbCorrupt`), `Release` at line 561, and
the result selection at lines 564-568. -/
def fallbackPath (env : FrameEnv) (n : Nat) (d1 : Nat → Nat) : FallOut :=
  if env.rawPtrVal = 0 then
    ⟨0, [], [.addRef, .rawFallbackEnter, .release], [], 0⟩
  else if env.rawPtrVal < 0x10000 ∨ 0x7FFF00000000 ≤ env.rawPtrVal then
    ⟨0, [], [.addRef, .rawFallbackEnter, .release], [], 0⟩
  else
    ⟨if fbBytes env n ≤ n / 2 then 0 else if fbCorrupt env n d1 then -1 else 1,
     fbWrites env n,
     [.addRef, .rawFallbackEnter] ++ (if n / 2 < fbBytes env n then [.detectorRun] else [])
       ++ [.release],
     if n / 2 < fbBytes env n then detReadOffsets env.width env.height env.rowBytes else [],
     fbBytes env n⟩

/-- The fallback outcome as it occurs inside a full call: the destination
state at fallback entry is the initial buffer after whatever the failed
modern and legacy attempts wrote. -/
def fbIn (env : FrameEnv) (n : Nat) (d0 : Nat → Nat) : FallOut :=
  fallbackPath env n
    (applyWrites (applyWrites d0 (modernPath env n).writes) (legacyPath env n).writes)

/-- `CopyDeckLinkFrameBytes(framePtr, buffer, bufferSize)` (lines 141-569):
argument guards, COM-pointer validation, metadata read, then the modern path,
the legacy path, and the raw-offset fallback in order, each tried only if the
previous produced no data. -/
def CopyDeckLinkFrameBytes (env : FrameEnv) (bufferSize : Int) (d0 : Nat → Nat) : Outcome :=
  if env.framePtrNull ∨ env.bufferNull ∨ bufferSize ≤ 0 then ⟨0, [], [], [], 0⟩
  else if ¬ env.qiUnknownOk then ⟨0, [], [], [], 0⟩
  else if env.metadataFaults then ⟨0, [], [], [], 0⟩
  else if (modernPath env bufferSize.toNat).ok then
    ⟨1, (modernPath env bufferSize.toNat).writes, (modernPath env bufferSize.toNat).events,
     [], 0⟩
  else if (legacyPath env bufferSize.toNat).ok then
    ⟨1, (modernPath env bufferSize.toNat).writes ++ (legacyPath env bufferSize.toNat).writes,
     (modernPath env bufferSize.toNat).events ++ (legacyPath env bufferSize.toNat).events,
     [], 0⟩
  else
    ⟨(fbIn env bufferSize.toNat d0).result,
     (modernPath env bufferSize.toNat).writes ++ (legacyPath env bufferSize.toNat).writes
       ++ (fbIn env bufferSize.toNat d0).writes,
     (modernPath env bufferSize.toNat).events ++ (legacyPath env bufferSize.toNat).events
       ++ (fbIn env bufferSize.toNat d0).events,
     (fbIn env bufferSize.toNat d0).reads,
     (fbIn env bufferSize.toNat d0).bytesCopied⟩

/-- The set of destination-buffer cells a call wrote at least once. -/
def writtenCells (o : Outcome) : Finset Nat := (o.writes.map Prod.fst).toFinset

/-- Environment for `GetDeckLinkFrameInfo` (lines 571-594): accessor values,
which of the four indexed accessor calls fault when invoked, and which of the
caller's out-pointers are null. -/
structure InfoEnv where
  framePtrNull : Bool
  width : Nat
  height : Nat
  rowBytes : Nat
  flags : Nat
  widthFaults : Bool
  heightFaults : Bool
  rowBytesFaults : Bool
  flagsFaults : Bool
  widthNull : Bool
  heightNull : Bool
  rowBytesNull : Bool
  flagsNull : Bool

/-- Return status and the final values of the four caller-supplied output
cells of `GetDeckLinkFrameInfo`. -/
structure InfoOut where
  status : Int
  width : Nat
  height : Nat
  rowBytes : Nat
  flags : Nat

/-- `GetDeckLinkFrameInfo(framePtr, width, height, rowBytes, flags)`
(lines 571-594).  `w0 h0 rb0 f0` are the initial contents of the caller's
output cells.  Inside the `__try`, each non-null out-pointer is assigned from
its indexed accessor in order; a faulting accessor call jumps to the
`__except` handler (line 590) and returns 0, leaving already-assigned cells
as they are. -/
def GetDeckLinkFrameInfo (env : InfoEnv) (w0 h0 rb0 f0 : Nat) : InfoOut :=
  if env.framePtrNull then ⟨0, w0, h0, rb0, f0⟩
  else if ¬ env.widthNull ∧ env.widthFaults then ⟨0, w0, h0, rb0, f0⟩
  else
    let w1 := if env.widthNull then w0 else env.width
    if ¬ env.heightNull ∧ env.heightFaults then ⟨0, w1, h0, rb0, f0⟩
    else
      let h1 := if env.heightNull then h0 else env.height
      if ¬ env.rowBytesNull ∧ env.rowBytesFaults then ⟨0, w1, h1, rb0, f0⟩
      else
        let rb1 := if env.rowBytesNull then rb0 else env.rowBytes
        if ¬ env.flagsNull ∧ env.flagsFaults then ⟨0, w1, h1, rb1, f0⟩
        else ⟨1, w1, h1, rb1, if env.flagsNull then f0 else env.flags⟩

/-- Some performed accessor call of `GetDeckLinkFrameInfo` faults. -/
def infoFaults (env : InfoEnv) : Bool :=
  (!env.widthNull && env.widthFaults) || (!env.heightNull && env.heightFaults) ||
    (!env.rowBytesNull && env.rowBytesFaults) || (!env.flagsNull && env.flagsFaults)

/-! ### Basic lemmas about write replay -/

theorem applyWrites_nil (d : Nat → Nat) : applyWrites d [] = d := rfl

theorem applyWrites_cons (d : Nat → Nat) (w : Nat × Nat) (ws : List (Nat × Nat)) :
    applyWrites d (w :: ws) = applyWrites (Function.update d w.1 w.2) ws := rfl

theorem applyWrites_append (d : Nat → Nat) (a b : List (Nat × Nat)) :
    applyWrites d (a ++ b) = applyWrites (applyWrites d a) b :=
  List.foldl_append _ _ _ _

theorem applyWrites_not_mem (ws : List (Nat × Nat)) (d : Nat → Nat) (o : Nat)
    (h : o ∉ ws.map Prod.fst) : applyWrites d ws o = d o := by
  induction ws generalizing d with
  | nil => rfl
  | cons w t ih =>
      simp only [List.map_cons, List.mem_cons] at h
      push_neg at h
      rw [applyWrites_cons, ih _ h.2, Function.update_noteq h.1]

theorem applyWrites_eq_of_mem (ws : List (Nat × Nat)) (d : Nat → Nat) (o v : Nat)
    (hnd : (ws.map Prod.fst).Nodup) (hm : (o, v) ∈ ws) : applyWrites d ws o = v := by
  induction ws generalizing d with
  | nil => cases hm
  | cons w t ih =>
      rw [List.map_cons, List.nodup_cons] at hnd
      rcases List.mem_cons.mp hm with h | h
      · subst h
        rw [applyWrites_cons, applyWrites_not_mem _ _ _ hnd.1, Function.update_same]
      · rw [applyWrites_cons]
        exact ih _ hnd.2 h

/-! ### Region-shaped write lists -/

theorem copyWrites_eq (src : Nat → Nat) (base len : Nat) :
    copyWrites src base len = (List.range len).map (fun j => (base + j, src (base + j))) := rfl

theorem map_fst_range_map (base L : Nat) (g : Nat → Nat) :
    (((List.range L).map (fun j => (base + j, g j))).map Prod.fst) = (List.range L).map (base + ·) := by
  simp only [List.map_map]
  rfl

theorem mem_range_map_iff {base L o : Nat} :
    o ∈ (List.range L).map (base + ·) ↔ base ≤ o ∧ o < base + L := by
  simp only [List.mem_map, List.mem_range]
  constructor
  · rintro ⟨j, hj, rfl⟩
    omega
  · rintro ⟨h1, h2⟩
    exact ⟨o - base, by omega, by omega⟩

theorem applyWrites_range_map (d : Nat → Nat) (base L : Nat) (g : Nat → Nat) (j : Nat)
    (h : j < L) :
    applyWrites d ((List.range L).map (fun i => (base + i, g i))) (base + j) = g j := by
  apply applyWrites_eq_of_mem
  · rw [map_fst_range_map]
    exact List.Nodup.map (fun a b hab => by omega) (List.nodup_range L)
  · exact List.mem_map.mpr ⟨j, List.mem_range.mpr h, rfl⟩

theorem fillWrites_eq (base len : Nat) :
    fillWrites base len = (List.range (4 * ((len + 3) / 4))).map
      (fun j => (base + j, if j % 2 = 0 then 0x80 else 0x10)) := by
  unfold fillWrites
  generalize (len + 3) / 4 = Q
  induction Q with
  | zero => rfl
  | succ q ih =>
      rw [List.range_succ, List.flatMap_append, ih]
      have h4 : 4 * (q + 1) = 4 * q + 4 := by ring
      rw [h4, List.range_add, List.map_append, List.flatMap_cons, List.flatMap_nil,
        List.append_nil]
      congr 1
      have e0 : (4 * q) % 2 = 0 := by omega
      have e1 : (4 * q + 1) % 2 = 1 := by omega
      have e2 : (4 * q + 2) % 2 = 0 := by omega
      have e3 : (4 * q + 3) % 2 = 1 := by omega
      have hr4 : List.range 4 = [0, 1, 2, 3] := by decide
      simp [hr4, e0, e1, e2, e3, Nat.add_assoc]

/-! ### The chunked copy -/

theorem chunkSz_eq : chunkSz = 65536 := rfl

theorem numChunks_eq (n : Nat) : numChunks n = (n + 65536 - 1) / 65536 := rfl

theorem chunkLen_eq (n i : Nat) : chunkLen n i = min 65536 (n - i * 65536) := rfl

theorem range_split (N j : Nat) (h : j < N) :
    List.range N = List.range j ++ j :: (List.range (N - j - 1)).map (j + 1 + ·) := by
  have h1 : N = j + (1 + (N - j - 1)) := by omega
  rw [h1, List.range_add, List.range_add]
  simp [List.map_map, Function.comp_def, Nat.add_assoc, List.range_succ]

theorem chunkedWrites_split (env : FrameEnv) (n j : Nat) (hj : j < numChunks n) :
    chunkedWrites env n =
      ((List.range j).flatMap (chunkWrites env n) ++ chunkWrites env n j) ++
        (((List.range (numChunks n - j - 1)).map (j + 1 + ·)).flatMap (chunkWrites env n)) := by
  unfold chunkedWrites
  rw [range_split (numChunks n) j hj, List.flatMap_append, List.flatMap_cons,
    List.append_assoc]

theorem chunkWrites_key_bounds (env : FrameEnv) (n i o : Nat)
    (h : o ∈ (chunkWrites env n i).map Prod.fst) :
    i * chunkSz ≤ o ∧ o < i * chunkSz + 4 * ((chunkLen n i + 3) / 4) := by
  unfold chunkWrites at h
  by_cases hf : env.chunkFaults i
  · rw [if_pos hf, List.map_append] at h
    rcases List.mem_append.mp h with h | h
    · rw [copyWrites_eq, map_fst_range_map] at h
      have hb := mem_range_map_iff.mp h
      simp only [chunkSz_eq, chunkLen_eq] at *
      omega
    · rw [fillWrites_eq, map_fst_range_map] at h
      have hb := mem_range_map_iff.mp h
      simp only [chunkSz_eq, chunkLen_eq] at *
      omega
  · rw [if_neg hf, copyWrites_eq, map_fst_range_map] at h
    have hb := mem_range_map_iff.mp h
    simp only [chunkSz_eq, chunkLen_eq] at *
    omega

theorem applyWrites_chunkWrites_success (env : FrameEnv) (n i t : Nat) (d : Nat → Nat)
    (hf : env.chunkFaults i = false) (ht : t < chunkLen n i) :
    applyWrites d (chunkWrites env n i) (i * chunkSz + t) = env.rawSrc (i * chunkSz + t) := by
  unfold chunkWrites
  rw [hf]
  simp only [Bool.false_eq_true, if_false, copyWrites_eq]
  exact applyWrites_range_map d _ _ _ t ht

theorem applyWrites_chunkWrites_fault (env : FrameEnv) (n i t : Nat) (d : Nat → Nat)
    (hf : env.chunkFaults i = true) (ht : t < chunkLen n i) :
    applyWrites d (chunkWrites env n i) (i * chunkSz + t)
      = if t % 2 = 0 then 0x80 else 0x10 := by
  unfold chunkWrites
  rw [hf]
  simp only [if_true, applyWrites_append, fillWrites_eq]
  have h4 : t < 4 * ((chunkLen n i + 3) / 4) := by omega
  exact applyWrites_range_map _ _ _ _ t h4

theorem applyWrites_chunkedWrites (env : FrameEnv) (n j t : Nat) (d : Nat → Nat)
    (hj : j < numChunks n) (ht : t < chunkLen n j) :
    applyWrites d (chunkedWrites env n) (j * chunkSz + t)
      = applyWrites (applyWrites d ((List.range j).flatMap (chunkWrites env n)))
          (chunkWrites env n j) (j * chunkSz + t) := by
  rw [chunkedWrites_split env n j hj, applyWrites_append, applyWrites_append]
  apply applyWrites_not_mem
  intro hmem
  rw [List.map_flatMap] at hmem
  rcases List.mem_flatMap.mp hmem with ⟨a, ha, hoa⟩
  rcases List.mem_map.mp ha with ⟨s, _, rfl⟩
  have hb := (chunkWrites_key_bounds env n _ _ hoa).1
  simp only [chunkSz_eq, chunkLen_eq] at *
  omega

theorem list_range_map_sum (f : Nat → Nat) (n : Nat) :
    ((List.range n).map f).sum = ∑ i in Finset.range n, f i := by
  induction n with
  | zero => simp
  | succ m ih => simp [List.range_succ, Finset.sum_range_succ, ih]

theorem sum_chunkLen (n : Nat) : ∑ i in Finset.range (numChunks n), chunkLen n i = n := by
  have hNC := numChunks_eq n
  rcases Nat.eq_zero_or_pos n with h0 | h0
  · subst h0
    have hz : numChunks 0 = 0 := by omega
    rw [hz]
    simp
  · obtain ⟨M, hM⟩ : ∃ M, numChunks n = M + 1 := ⟨numChunks n - 1, by omega⟩
    rw [hM, Finset.sum_range_succ]
    have hMval : (n + 65536 - 1) / 65536 = M + 1 := by omega
    have hcongr : ∀ i ∈ Finset.range M, chunkLen n i = 65536 := by
      intro i hi
      rw [Finset.mem_range] at hi
      rw [chunkLen_eq]
      omega
    rw [Finset.sum_congr rfl hcongr, Finset.sum_const, Finset.card_range, smul_eq_mul,
      chunkLen_eq]
    omega

theorem chunkedBytesCopied_single_fault (env : FrameEnv) (n k : Nat)
    (hk : k < numChunks n) (hf : env.chunkFaults k = true)
    (ho : ∀ j, j < numChunks n → j ≠ k → env.chunkFaults j = false) :
    chunkedBytesCopied env n = n - chunkLen n k := by
  unfold chunkedBytesCopied
  rw [list_range_map_sum]
  have hmem : k ∈ Finset.range (numChunks n) := Finset.mem_range.mpr hk
  rw [← Finset.add_sum_erase _ _ hmem, hf, if_pos rfl]
  have hcongr : ∀ j ∈ (Finset.range (numChunks n)).erase k,
      (if env.chunkFaults j = true then 0 else chunkLen n j) = chunkLen n j := by
    intro j hj
    have h1 := Finset.mem_erase.mp hj
    rw [ho j (Finset.mem_range.mp h1.2) h1.1]
    simp
  rw [Finset.sum_congr rfl hcongr]
  have h2 : (∑ j in (Finset.range (numChunks n)).erase k, chunkLen n j) + chunkLen n k = n := by
    rw [add_comm, Finset.add_sum_erase _ _ hmem, sum_chunkLen]
  rw [zero_add]
  exact Nat.eq_sub_of_add_eq h2

/-! ### Path-level facts -/

theorem modernPath_ok (env : FrameEnv) (n : Nat) :
    (modernPath env n).ok = modernSucceeds env := by
  unfold modernPath modernSucceeds
  cases hq : env.qiVideoBuffer <;> cases hs : env.startAccessOk <;>
    cases hg : env.modernGetBytesOk <;> cases hc : env.modernCopyFaults <;> simp [hq, hs, hg, hc]

theorem legacyPath_ok (env : FrameEnv) (n : Nat) :
    (legacyPath env n).ok = legacySucceeds env := by
  unfold legacyPath legacySucceeds
  cases hq : env.qiLegacy <;> cases hg : env.legacyGetBytesOk <;>
    cases hc : env.legacyCopyFaults <;> simp [hq, hg, hc]

theorem modernPath_events_cases (env : FrameEnv) (n : Nat) :
    (modernPath env n).events = [] ∨ (modernPath env n).events = [Ev.startAccess] ∨
      (modernPath env n).events = [Ev.startAccess, Ev.endAccess] := by
  unfold modernPath
  split_ifs <;> simp

theorem legacyPath_events_cases (env : FrameEnv) (n : Nat) :
    (legacyPath env n).events = [] ∨ (legacyPath env n).events = [Ev.legacyGetBytes] := by
  unfold legacyPath
  split_ifs <;> simp

theorem mem_modernPath_events (env : FrameEnv) (n : Nat) (e : Ev)
    (h : e ∈ (modernPath env n).events) : e = Ev.startAccess ∨ e = Ev.endAccess := by
  rcases modernPath_events_cases env n with hc | hc | hc <;> rw [hc] at h <;> simp at h <;> tauto

theorem mem_legacyPath_events (env : FrameEnv) (n : Nat) (e : Ev)
    (h : e ∈ (legacyPath env n).events) : e = Ev.legacyGetBytes := by
  rcases legacyPath_events_cases env n with hc | hc <;> rw [hc] at h <;> simp at h <;> tauto

theorem modernPath_count_zero (env : FrameEnv) (n : Nat) (e : Ev)
    (h1 : e ≠ Ev.startAccess) (h2 : e ≠ Ev.endAccess) :
    (modernPath env n).events.count e = 0 := by
  refine List.count_eq_zero.mpr fun hm => ?_
  rcases mem_modernPath_events env n e hm with h | h
  · exact h1 h
  · exact h2 h

theorem legacyPath_count_zero (env : FrameEnv) (n : Nat) (e : Ev)
    (h1 : e ≠ Ev.legacyGetBytes) : (legacyPath env n).events.count e = 0 := by
  refine List.count_eq_zero.mpr fun hm => ?_
  exact h1 (mem_legacyPath_events env n e hm)

theorem modernPath_writes_bound (env : FrameEnv) (n o : Nat)
    (h : o ∈ (modernPath env n).writes.map Prod.fst) :
    o < min n (env.rowBytes * env.height) := by
  unfold modernPath at h
  split_ifs at h <;>
    simp only [copyWrites_eq, map_fst_range_map, List.map_nil, List.not_mem_nil] at h
  · have hb := mem_range_map_iff.mp h
    omega
  · have hb := mem_range_map_iff.mp h
    omega

theorem legacyPath_writes_bound (env : FrameEnv) (n o : Nat)
    (h : o ∈ (legacyPath env n).writes.map Prod.fst) :
    o < min n (env.rowBytes * env.height) := by
  unfold legacyPath at h
  split_ifs at h <;>
    simp only [copyWrites_eq, map_fst_range_map, List.map_nil, List.not_mem_nil] at h
  · have hb := mem_range_map_iff.mp h
    omega
  · have hb := mem_range_map_iff.mp h
    omega

theorem ptrGood_checks (env : FrameEnv) (h : ptrGood env = true) :
    ¬ env.rawPtrVal = 0 ∧ ¬ (env.rawPtrVal < 0x10000 ∨ 0x7FFF00000000 ≤ env.rawPtrVal) := by
  simp only [ptrGood, Bool.and_eq_true, decide_eq_true_eq] at h
  omega

theorem fallbackPath_good (env : FrameEnv) (n : Nat) (d1 : Nat → Nat)
    (h : ptrGood env = true) :
    fallbackPath env n d1 =
      ⟨if fbBytes env n ≤ n / 2 then 0 else if fbCorrupt env n d1 then -1 else 1,
       fbWrites env n,
       [.addRef, .rawFallbackEnter] ++ (if n / 2 < fbBytes env n then [.detectorRun] else [])
         ++ [.release],
       if n / 2 < fbBytes env n then detReadOffsets env.width env.height env.rowBytes else [],
       fbBytes env n⟩ := by
  obtain ⟨h1, h2⟩ := ptrGood_checks env h
  unfold fallbackPath
  rw [if_neg h1, if_neg h2]

theorem fallbackPath_bad (env : FrameEnv) (n : Nat) (d1 : Nat → Nat)
    (h : ptrGood env = false) :
    fallbackPath env n d1 = ⟨0, [], [.addRef, .rawFallbackEnter, .release], [], 0⟩ := by
  unfold fallbackPath
  by_cases h1 : env.rawPtrVal = 0
  · rw [if_pos h1]
  · rw [if_neg h1, if_pos]
    simp only [ptrGood, Bool.and_eq_false_iff, decide_eq_false_iff_not, not_not,
      not_le, not_lt] at h
    rcases h with (h | h) | h
    · exact absurd h h1
    · exact Or.inl h
    · exact Or.inr h

theorem fallbackPath_mem_enter (env : FrameEnv) (n : Nat) (d1 : Nat → Nat) :
    Ev.rawFallbackEnter ∈ (fallbackPath env n d1).events := by
  by_cases h : ptrGood env = true
  · rw [fallbackPath_good env n d1 h]
    simp
  · rw [fallbackPath_bad env n d1 (by simpa using h)]
    simp

theorem fallbackPath_count (env : FrameEnv) (n : Nat) (d1 : Nat → Nat) (e : Ev)
    (h1 : e = Ev.addRef ∨ e = Ev.release) :
    (fallbackPath env n d1).events.count e = 1 := by
  by_cases h : ptrGood env = true
  · rw [fallbackPath_good env n d1 h]
    rcases h1 with rfl | rfl <;> by_cases hd : n / 2 < fbBytes env n <;>
      simp [hd, List.count_append, List.count_cons]
  · rw [fallbackPath_bad env n d1 (by simpa using h)]
    rcases h1 with rfl | rfl <;> decide

/-! ### Scenario lemmas for the full call -/

theorem copy_eq_modern (env : FrameEnv) (bs : Int) (d0 : Nat → Nat)
    (h1 : env.framePtrNull = false) (h2 : env.bufferNull = false) (h3 : 0 < bs)
    (h4 : env.qiUnknownOk = true) (h5 : env.metadataFaults = false)
    (h6 : modernSucceeds env = true) :
    CopyDeckLinkFrameBytes env bs d0 =
      ⟨1, (modernPath env bs.toNat).writes, (modernPath env bs.toNat).events, [], 0⟩ := by
  have h3' : ¬ bs ≤ 0 := by omega
  unfold CopyDeckLinkFrameBytes
  rw [if_neg (by simp [h1, h2, h3']), if_neg (by simp [h4]), if_neg (by simp [h5]),
    if_pos (by rw [modernPath_ok env bs.toNat, h6])]

theorem copy_eq_legacy (env : FrameEnv) (bs : Int) (d0 : Nat → Nat)
    (h1 : env.framePtrNull = false) (h2 : env.bufferNull = false) (h3 : 0 < bs)
    (h4 : env.qiUnknownOk = true) (h5 : env.metadataFaults = false)
    (h6 : modernSucceeds env = false) (h7 : legacySucceeds env = true) :
    CopyDeckLinkFrameBytes env bs d0 =
      ⟨1, (modernPath env bs.toNat).writes ++ (legacyPath env bs.toNat).writes,
       (modernPath env bs.toNat).events ++ (legacyPath env bs.toNat).events, [], 0⟩ := by
  have h3' : ¬ bs ≤ 0 := by omega
  unfold CopyDeckLinkFrameBytes
  rw [if_neg (by simp [h1, h2, h3']), if_neg (by simp [h4]), if_neg (by simp [h5]),
    if_neg (by rw [modernPath_ok env bs.toNat, h6]; simp),
    if_pos (by rw [legacyPath_ok env bs.toNat, h7])]

theorem copy_eq_fallback (env : FrameEnv) (bs : Int) (d0 : Nat → Nat)
    (h1 : env.framePtrNull = false) (h2 : env.bufferNull = false) (h3 : 0 < bs)
    (h4 : env.qiUnknownOk = true) (h5 : env.metadataFaults = false)
    (h6 : modernSucceeds env = false) (h7 : legacySucceeds env = false) :
    CopyDeckLinkFrameBytes env bs d0 =
      ⟨(fbIn env bs.toNat d0).result,
       (modernPath env bs.toNat).writes ++ (legacyPath env bs.toNat).writes
         ++ (fbIn env bs.toNat d0).writes,
       (modernPath env bs.toNat).events ++ (legacyPath env bs.toNat).events
         ++ (fbIn env bs.toNat d0).events,
       (fbIn env bs.toNat d0).reads,
       (fbIn env bs.toNat d0).bytesCopied⟩ := by
  have h3' : ¬ bs ≤ 0 := by omega
  unfold CopyDeckLinkFrameBytes
  rw [if_neg (by simp [h1, h2, h3']), if_neg (by simp [h4]), if_neg (by simp [h5]),
    if_neg (by rw [modernPath_ok env bs.toNat, h6]; simp),
    if_neg (by rw [legacyPath_ok env bs.toNat, h7]; simp)]

/-- Some argument or validation guard of `CopyDeckLinkFrameBytes` fails. -/
def guardFail (env : FrameEnv) (bs : Int) : Prop :=
  env.framePtrNull = true ∨ env.bufferNull = true ∨ bs ≤ 0 ∨
    env.qiUnknownOk = false ∨ env.metadataFaults = true

theorem no_guard_fail (env : FrameEnv) (bs : Int)
    (h1 : env.framePtrNull = false) (h2 : env.bufferNull = false) (h3 : 0 < bs)
    (h4 : env.qiUnknownOk = true) (h5 : env.metadataFaults = false)
    (hg : guardFail env bs) : False := by
  rcases hg with g | g | g | g | g <;> first | omega | simp_all

theorem copy_cases_struct (env : FrameEnv) (bs : Int) (d0 : Nat → Nat) :
    (guardFail env bs ∧ CopyDeckLinkFrameBytes env bs d0 = ⟨0, [], [], [], 0⟩) ∨
    (modernSucceeds env = true ∧ CopyDeckLinkFrameBytes env bs d0 =
      ⟨1, (modernPath env bs.toNat).writes, (modernPath env bs.toNat).events, [], 0⟩) ∨
    (modernSucceeds env = false ∧ legacySucceeds env = true ∧
      CopyDeckLinkFrameBytes env bs d0 =
        ⟨1, (modernPath env bs.toNat).writes ++ (legacyPath env bs.toNat).writes,
         (modernPath env bs.toNat).events ++ (legacyPath env bs.toNat).events, [], 0⟩) ∨
    (modernSucceeds env = false ∧ legacySucceeds env = false ∧
      CopyDeckLinkFrameBytes env bs d0 =
        ⟨(fbIn env bs.toNat d0).result,
         (modernPath env bs.toNat).writes ++ (legacyPath env bs.toNat).writes
           ++ (fbIn env bs.toNat d0).writes,
         (modernPath env bs.toNat).events ++ (legacyPath env bs.toNat).events
           ++ (fbIn env bs.toNat d0).events,
         (fbIn env bs.toNat d0).reads,
         (fbIn env bs.toNat d0).bytesCopied⟩) := by
  by_cases h1 : env.framePtrNull = true
  · refine Or.inl ⟨Or.inl h1, ?_⟩
    unfold CopyDeckLinkFrameBytes
    rw [if_pos (Or.inl h1)]
  by_cases h2 : env.bufferNull = true
  · refine Or.inl ⟨Or.inr (Or.inl h2), ?_⟩
    unfold CopyDeckLinkFrameBytes
    rw [if_pos (Or.inr (Or.inl h2))]
  by_cases h3 : bs ≤ 0
  · refine Or.inl ⟨Or.inr (Or.inr (Or.inl h3)), ?_⟩
    unfold CopyDeckLinkFrameBytes
    rw [if_pos (Or.inr (Or.inr h3))]
  by_cases h4 : env.qiUnknownOk = true
  case neg =>
    refine Or.inl ⟨Or.inr (Or.inr (Or.inr (Or.inl (by simpa using h4)))), ?_⟩
    unfold CopyDeckLinkFrameBytes
    rw [if_neg (by simp [h1, h2, h3]), if_pos h4]
  by_cases h5 : env.metadataFaults = true
  · refine Or.inl ⟨Or.inr (Or.inr (Or.inr (Or.inr h5))), ?_⟩
    unfold CopyDeckLinkFrameBytes
    rw [if_neg (by simp [h1, h2, h3]), if_neg (by simp [h4]), if_pos h5]
  have h1' : env.framePtrNull = false := by simpa using h1
  have h2' : env.bufferNull = false := by simpa using h2
  have h3' : 0 < bs := by omega
  have h5' : env.metadataFaults = false := by simpa using h5
  by_cases hm : modernSucceeds env = true
  · exact Or.inr (Or.inl ⟨hm, copy_eq_modern env bs d0 h1' h2' h3' h4 h5' hm⟩)
  have hm' : modernSucceeds env = false := by simpa using hm
  by_cases hl : legacySucceeds env = true
  · exact Or.inr (Or.inr (Or.inl ⟨hm', hl, copy_eq_legacy env bs d0 h1' h2' h3' h4 h5' hm' hl⟩))
  have hl' : legacySucceeds env = false := by simpa using hl
  exact Or.inr (Or.inr (Or.inr ⟨hm', hl',
    copy_eq_fallback env bs d0 h1' h2' h3' h4 h5' hm' hl'⟩))

theorem fbIn_good (env : FrameEnv) (n : Nat) (d0 : Nat → Nat) (hp : ptrGood env = true) :
    (fbIn env n d0).result =
      (if fbBytes env n ≤ n / 2 then 0
       else if fbCorrupt env n
          (applyWrites (applyWrites d0 (modernPath env n).writes) (legacyPath env n).writes)
        then -1 else 1) ∧
    (fbIn env n d0).writes = fbWrites env n ∧
    (fbIn env n d0).events =
      [Ev.addRef, Ev.rawFallbackEnter]
        ++ (if n / 2 < fbBytes env n then [Ev.detectorRun] else []) ++ [Ev.release] ∧
    (fbIn env n d0).reads =
      (if n / 2 < fbBytes env n then detReadOffsets env.width env.height env.rowBytes
       else []) ∧
    (fbIn env n d0).bytesCopied = fbBytes env n := by
  unfold fbIn
  rw [fallbackPath_good env n _ hp]
  exact ⟨rfl, rfl, rfl, rfl, rfl⟩

theorem fbIn_bad (env : FrameEnv) (n : Nat) (d0 : Nat → Nat) (hp : ptrGood env = false) :
    (fbIn env n d0).result = 0 ∧ (fbIn env n d0).writes = [] ∧
    (fbIn env n d0).events = [Ev.addRef, Ev.rawFallbackEnter, Ev.release] ∧
    (fbIn env n d0).reads = [] ∧ (fbIn env n d0).bytesCopied = 0 := by
  unfold fbIn
  rw [fallbackPath_bad env n _ hp]
  exact ⟨rfl, rfl, rfl, rfl, rfl⟩

theorem copy_cases (env : FrameEnv) (bs : Int) (d0 : Nat → Nat) :
    (guardFail env bs ∧
     (CopyDeckLinkFrameBytes env bs d0).result = 0 ∧
     (CopyDeckLinkFrameBytes env bs d0).writes = [] ∧
     (CopyDeckLinkFrameBytes env bs d0).events = [] ∧
     (CopyDeckLinkFrameBytes env bs d0).reads = [] ∧
     (CopyDeckLinkFrameBytes env bs d0).fallbackBytesCopied = 0) ∨
    (modernSucceeds env = true ∧
     (CopyDeckLinkFrameBytes env bs d0).result = 1 ∧
     (CopyDeckLinkFrameBytes env bs d0).writes = (modernPath env bs.toNat).writes ∧
     (CopyDeckLinkFrameBytes env bs d0).events = (modernPath env bs.toNat).events ∧
     (CopyDeckLinkFrameBytes env bs d0).reads = [] ∧
     (CopyDeckLinkFrameBytes env bs d0).fallbackBytesCopied = 0) ∨
    (modernSucceeds env = false ∧ legacySucceeds env = true ∧
     (CopyDeckLinkFrameBytes env bs d0).result = 1 ∧
     (CopyDeckLinkFrameBytes env bs d0).writes =
       (modernPath env bs.toNat).writes ++ (legacyPath env bs.toNat).writes ∧
     (CopyDeckLinkFrameBytes env bs d0).events =
       (modernPath env bs.toNat).events ++ (legacyPath env bs.toNat).events ∧
     (CopyDeckLinkFrameBytes env bs d0).reads = [] ∧
     (CopyDeckLinkFrameBytes env bs d0).fallbackBytesCopied = 0) ∨
    (modernSucceeds env = false ∧ legacySucceeds env = false ∧
     (CopyDeckLinkFrameBytes env bs d0).result = (fbIn env bs.toNat d0).result ∧
     (CopyDeckLinkFrameBytes env bs d0).writes =
       (modernPath env bs.toNat).writes ++ (legacyPath env bs.toNat).writes
         ++ (fbIn env bs.toNat d0).writes ∧
     (CopyDeckLinkFrameBytes env bs d0).events =
       (modernPath env bs.toNat).events ++ (legacyPath env bs.toNat).events
         ++ (fbIn env bs.toNat d0).events ∧
     (CopyDeckLinkFrameBytes env bs d0).reads = (fbIn env bs.toNat d0).reads ∧
     (CopyDeckLinkFrameBytes env bs d0).fallbackBytesCopied
       = (fbIn env bs.toNat d0).bytesCopied) := by
  rcases copy_cases_struct env bs d0 with ⟨hg, hc⟩ | ⟨hm, hc⟩ | ⟨hm, hl, hc⟩ | ⟨hm, hl, hc⟩
  · exact Or.inl ⟨hg, by rw [hc]; exact ⟨rfl, rfl, rfl, rfl, rfl⟩⟩
  · exact Or.inr (Or.inl ⟨hm, by rw [hc]; exact ⟨rfl, rfl, rfl, rfl, rfl⟩⟩)
  · exact Or.inr (Or.inr (Or.inl ⟨hm, hl, by rw [hc]; exact ⟨rfl, rfl, rfl, rfl, rfl⟩⟩))
  · exact Or.inr (Or.inr (Or.inr ⟨hm, hl, by rw [hc]; exact ⟨rfl, rfl, rfl, rfl, rfl⟩⟩))

theorem card_le_of_bound (ws : List (Nat × Nat)) (B : Nat)
    (h : ∀ o ∈ ws.map Prod.fst, o < B) : (ws.map Prod.fst).toFinset.card ≤ B := by
  have hsub : (ws.map Prod.fst).toFinset ⊆ Finset.range B := by
    intro o ho
    rw [List.mem_toFinset] at ho
    exact Finset.mem_range.mpr (h o ho)
  calc (ws.map Prod.fst).toFinset.card ≤ (Finset.range B).card := Finset.card_le_card hsub
    _ = B := Finset.card_range B

theorem fbWrites_bound (env : FrameEnv) (n o : Nat)
    (h : o ∈ (fbWrites env n).map Prod.fst) : o < 4 * ((n + 3) / 4) := by
  unfold fbWrites at h
  split_ifs at h
  · rw [List.map_append] at h
    rcases List.mem_append.mp h with h | h
    · rw [copyWrites_eq, map_fst_range_map] at h
      have hb := mem_range_map_iff.mp h
      omega
    · unfold chunkedWrites at h
      rw [List.map_flatMap] at h
      rcases List.mem_flatMap.mp h with ⟨i, hi, ho⟩
      rw [List.mem_range] at hi
      have hb := chunkWrites_key_bounds env n i o ho
      simp only [chunkSz_eq, chunkLen_eq, numChunks_eq] at *
      omega
  · rw [copyWrites_eq, map_fst_range_map] at h
    have hb := mem_range_map_iff.mp h
    omega

theorem detReadOffsets_bound (w h rb n r : Nat) (hw : 3 ≤ w) (hrb : 2 * w ≤ rb)
    (hh : 1 ≤ h) (hn : h * rb ≤ n) (hr : r ∈ detReadOffsets w h rb) : r < n := by
  unfold detReadOffsets at hr
  rcases List.mem_flatMap.mp hr with ⟨i, _, hri⟩
  have hoff : detSampleOff w h rb i + 3 < n := by
    unfold detSampleOff
    have hy : (i * 131) % h < h := Nat.mod_lt _ (by omega)
    have hx : (i * 337) % (w * 2 - 4) < w * 2 - 4 := Nat.mod_lt _ (by omega)
    have hx4 : (i * 337) % (w * 2 - 4) / 4 * 4 ≤ (i * 337) % (w * 2 - 4) :=
      Nat.div_mul_le_self _ 4
    have hyy : ((i * 131) % h) * rb ≤ (h - 1) * rb := Nat.mul_le_mul_right _ (by omega)
    have hhh : (h - 1) * rb + rb = h * rb := by
      have he : h - 1 + 1 = h := by omega
      calc (h - 1) * rb + rb = (h - 1 + 1) * rb := by ring
        _ = h * rb := by rw [he]
    omega
  simp only [List.mem_cons, List.not_mem_nil, or_false] at hri
  omega

/-! ### Concrete environments used by witnesses and counterexamples -/

/-- Initial destination buffer used in concrete instances. -/
def zeroBuf : Nat → Nat := fun _ => 0

/-- Baseline environment: valid handle, buffer and COM pointer, small UYVY
geometry, every capability absent, offset-280 pointer null, no faults. -/
def baseEnv : FrameEnv where
  framePtrNull := false
  bufferNull := false
  qiUnknownOk := true
  width := 4
  height := 2
  rowBytes := 8
  pixelFormat := 0
  metadataFaults := false
  qiVideoBuffer := false
  startAccessOk := false
  modernGetBytesOk := false
  modernCopyFaults := false
  modernFaultLen := 0
  modernSrc := fun _ => 0
  qiLegacy := false
  legacyGetBytesOk := false
  legacyCopyFaults := false
  legacyFaultLen := 0
  legacySrc := fun _ => 0
  rawPtrVal := 0
  bulkCopyFaults := false
  bulkFaultLen := 0
  chunkFaults := fun _ => false
  chunkFaultLen := fun _ => 0
  rawSrc := fun _ => 0

/-- Environment in which the modern video-buffer path succeeds. -/
def envModernOk : FrameEnv :=
  { baseEnv with qiVideoBuffer := true, startAccessOk := true, modernGetBytesOk := true }

/-- Modern-only handle whose StartAccess fails, with a valid-looking raw
pointer behind offset 280. -/
def envC4 : FrameEnv := { baseEnv with qiVideoBuffer := true }

/-- Fallback with a plausible raw pointer and a fully successful bulk copy,
but geometry whose `rowBytes*height` is smaller than the requested size. -/
def envC1 : FrameEnv :=
  { baseEnv with rawPtrVal := 0x20000, width := 2, height := 1, rowBytes := 4 }

/-- Modern path: StartAccess and GetBytes succeed, then the copy faults. -/
def envC3 : FrameEnv := { baseEnv with
  qiVideoBuffer := true
  startAccessOk := true
  modernGetBytesOk := true
  modernCopyFaults := true }

/-- Fallback: bulk copy faults, chunk 1 of 2 faults, so exactly half of the
requested 131072 bytes get copied. -/
def envC7x : FrameEnv := { baseEnv with
  rawPtrVal := 0x20000
  bulkCopyFaults := true
  chunkFaults := fun i => i == 1 }

/-- Fallback: bulk copy faults, chunks 1 and 2 of 3 fault, so only one third
of the requested bytes get copied. -/
def envC7w : FrameEnv := { baseEnv with
  rawPtrVal := 0x20000
  bulkCopyFaults := true
  chunkFaults := fun i => !(i == 0) }

/-- Fallback: bulk copy faults, chunk 1 of 3 faults, with a non-trivial raw
source. -/
def envC5 : FrameEnv := { baseEnv with
  rawPtrVal := 0x20000
  bulkCopyFaults := true
  chunkFaults := fun i => i == 1
  rawSrc := fun o => (o + 3) % 256 }

/-- Fallback with a 6-byte request whose single 6-byte chunk faults: the
neutral-fill loop rounds the chunk up to 8 bytes. -/
def envC10a : FrameEnv := { baseEnv with
  rawPtrVal := 0x20000
  bulkCopyFaults := true
  chunkFaults := fun _ => true }

/-- Fallback with a successful 6-byte bulk copy but full-HD geometry, so the
corruption detector samples far beyond the 6 copied bytes. -/
def envC10b : FrameEnv :=
  { baseEnv with rawPtrVal := 0x20000, width := 1920, height := 1080, rowBytes := 3840 }

/-- Baseline metadata-query environment: all accessors healthy, all
out-pointers non-null, initial output cells distinct from accessor values. -/
def infoBase : InfoEnv where
  framePtrNull := false
  width := 1920
  height := 1080
  rowBytes := 3840
  flags := 7
  widthFaults := false
  heightFaults := false
  rowBytesFaults := false
  flagsFaults := false
  widthNull := false
  heightNull := false
  rowBytesNull := false
  flagsNull := false

/-- Metadata query whose third accessor (row stride) faults. -/
def envC8 : InfoEnv := { infoBase with rowBytesFaults := true }

/-- Metadata query whose second accessor (height) faults. -/
def envC8w : InfoEnv := { infoBase with heightFaults := true }

/-! ## Claim C1 -/

/-- Claim C1 is false as stated: with both accessor paths unavailable and a
plausible offset-280 pointer, a call with `bufferSize = 8` but
`rowBytes*height = 4` bulk-copies all 8 requested bytes (line 395 copies
`bufferSize`, not `min(bufferSize, rowBytes*height)`), so the number of
destination bytes written exceeds `min(bufferSize, rowBytes*height)`. -/
theorem c1_cex :
    ¬ ((writtenCells (CopyDeckLinkFrameBytes envC1 8 zeroBuf)).card
        ≤ min (8 : Int).toNat (envC1.rowBytes * envC1.height)) := by decide

/-- Claim C1 (amended): on every call that does not enter the raw-offset
fallback — i.e. on the modern buffered-access and legacy extraction paths and
on the failure guards — the number of destination-buffer bytes written is at
most `min(bufferSize, rowBytes*height)`. -/
theorem c1_bound (env : FrameEnv) (bs : Int) (d0 : Nat → Nat)
    (h : Ev.rawFallbackEnter ∉ (CopyDeckLinkFrameBytes env bs d0).events) :
    (writtenCells (CopyDeckLinkFrameBytes env bs d0)).card
      ≤ min bs.toNat (env.rowBytes * env.height) := by
  rcases copy_cases env bs d0 with ⟨-, -, hw, he, -, -⟩ | ⟨-, -, hw, he, -, -⟩ |
    ⟨-, -, -, hw, he, -, -⟩ | ⟨-, -, -, -, he, -, -⟩
  · unfold writtenCells
    rw [hw]
    simp
  · unfold writtenCells
    rw [hw]
    exact card_le_of_bound _ _ (fun o ho => modernPath_writes_bound env _ o ho)
  · unfold writtenCells
    rw [hw]
    refine card_le_of_bound _ _ (fun o ho => ?_)
    rw [List.map_append] at ho
    rcases List.mem_append.mp ho with ho | ho
    · exact modernPath_writes_bound env _ o ho
    · exact legacyPath_writes_bound env _ o ho
  · rw [he] at h
    exact absurd (List.mem_append.mpr (Or.inr (fallbackPath_mem_enter env bs.toNat _))) h

/-- Claim C1 (witness for the amended bound): a successful modern-path call. -/
theorem c1_w :
    Ev.rawFallbackEnter ∉ (CopyDeckLinkFrameBytes envModernOk 8 zeroBuf).events ∧
    (writtenCells (CopyDeckLinkFrameBytes envModernOk 8 zeroBuf)).card
      ≤ min (8 : Int).toNat (envModernOk.rowBytes * envModernOk.height) :=
  ⟨by decide, c1_bound envModernOk 8 zeroBuf (by decide)⟩

/-! ## Claim C2 -/

/-- Claim C2 is false as stated: a call that succeeds through the modern
buffered-access path returns 1 (line 292) without the corruption detector
ever running — the detector runs only on the raw-offset fallback path
(lines 429-433). -/
theorem c2_cex :
    (CopyDeckLinkFrameBytes envModernOk 8 zeroBuf).result = 1 ∧
    Ev.detectorRun ∉ (CopyDeckLinkFrameBytes envModernOk 8 zeroBuf).events := by decide

/-- Claim C2 (amended): for every call returning a non-Failure result, the
result is `-1` exactly when the corruption detector both ran and flagged the
final destination buffer; non-Failure results of the modern and legacy paths
are therefore always `1`, the detector never having run there. -/
theorem c2_verdict (env : FrameEnv) (bs : Int) (d0 : Nat → Nat)
    (h : (CopyDeckLinkFrameBytes env bs d0).result ≠ 0) :
    ((CopyDeckLinkFrameBytes env bs d0).result = -1 ↔
      Ev.detectorRun ∈ (CopyDeckLinkFrameBytes env bs d0).events ∧
        LooksLikeCorruptBGRA (applyWrites d0 (CopyDeckLinkFrameBytes env bs d0).writes)
          env.width env.height env.rowBytes = true) := by
  rcases copy_cases env bs d0 with ⟨-, hr, -, -, -, -⟩ | ⟨-, hr, hw, he, -, -⟩ |
    ⟨-, -, hr, hw, he, -, -⟩ | ⟨hm, hl, hr, hw, he, -, -⟩
  · exact absurd hr h
  · rw [hr, he]
    constructor
    · intro h1
      exact absurd h1 (by decide)
    · rintro ⟨hd, -⟩
      rcases mem_modernPath_events env bs.toNat _ hd with h' | h' <;> exact absurd h' (by decide)
  · rw [hr, he]
    constructor
    · intro h1
      exact absurd h1 (by decide)
    · rintro ⟨hd, -⟩
      rcases List.mem_append.mp hd with hd | hd
      · rcases mem_modernPath_events env bs.toNat _ hd with h' | h' <;>
          exact absurd h' (by decide)
      · exact absurd (mem_legacyPath_events env bs.toNat _ hd) (by decide)
  · by_cases hp : ptrGood env = true
    case neg =>
      have hb := (fbIn_bad env bs.toNat d0 (by simpa using hp)).1
      rw [hr, hb] at h
      exact absurd rfl h
    obtain ⟨hfr, hfw, hfe, -, -⟩ := fbIn_good env bs.toNat d0 hp
    rw [hr, hfr] at h ⊢
    rw [he, hfe, hw, hfw]
    by_cases hhalf : fbBytes env bs.toNat ≤ bs.toNat / 2
    · rw [if_pos hhalf] at h
      exact absurd rfl h
    rw [if_neg hhalf] at h ⊢
    have hlt : bs.toNat / 2 < fbBytes env bs.toNat := by omega
    have hweq : applyWrites d0
        ((modernPath env bs.toNat).writes ++ (legacyPath env bs.toNat).writes
          ++ fbWrites env bs.toNat)
        = applyWrites (applyWrites (applyWrites d0 (modernPath env bs.toNat).writes)
            (legacyPath env bs.toNat).writes) (fbWrites env bs.toNat) := by
      rw [applyWrites_append, applyWrites_append]
    have hfc : fbCorrupt env bs.toNat
        (applyWrites (applyWrites d0 (modernPath env bs.toNat).writes)
          (legacyPath env bs.toNat).writes)
        = LooksLikeCorruptBGRA (applyWrites d0
            ((modernPath env bs.toNat).writes ++ (legacyPath env bs.toNat).writes
              ++ fbWrites env bs.toNat)) env.width env.height env.rowBytes := by
      unfold fbCorrupt
      rw [if_pos hlt, hweq]
    rw [hfc]
    have hmem : Ev.detectorRun ∈
        (modernPath env bs.toNat).events ++ (legacyPath env bs.toNat).events ++
          ([Ev.addRef, Ev.rawFallbackEnter]
            ++ (if bs.toNat / 2 < fbBytes env bs.toNat then [Ev.detectorRun] else [])
            ++ [Ev.release]) := by
      rw [if_pos hlt]
      simp
    by_cases hc2 : LooksLikeCorruptBGRA (applyWrites d0
        ((modernPath env bs.toNat).writes ++ (legacyPath env bs.toNat).writes
          ++ fbWrites env bs.toNat)) env.width env.height env.rowBytes = true
    · rw [if_pos hc2]
      exact ⟨fun _ => ⟨hmem, hc2⟩, fun _ => rfl⟩
    · rw [if_neg hc2]
      constructor
      · intro h1
        exact absurd h1 (by decide)
      · rintro ⟨-, hv⟩
        exact absurd hv hc2

/-- Claim C2 (witness for the amended claim): a successful modern-path call,
whose result 1 is not -1 and where the detector indeed never ran. -/
theorem c2_w :
    (CopyDeckLinkFrameBytes envModernOk 16 zeroBuf).result ≠ 0 ∧
    ((CopyDeckLinkFrameBytes envModernOk 16 zeroBuf).result = -1 ↔
      Ev.detectorRun ∈ (CopyDeckLinkFrameBytes envModernOk 16 zeroBuf).events ∧
        LooksLikeCorruptBGRA
          (applyWrites zeroBuf (CopyDeckLinkFrameBytes envModernOk 16 zeroBuf).writes)
          envModernOk.width envModernOk.height envModernOk.rowBytes = true) :=
  ⟨by decide, c2_verdict envModernOk 16 zeroBuf (by decide)⟩

/-! ## Claim C3 -/

/-- Claim C3 is right and the code is wrong (code bug): when StartAccess and
GetBytes succeed but the copy `memcpy` faults, control jumps from inside the
`__try` block (line 259) to the `__except` handler (line 286), skipping the
`endAccess` call at line 279 — `EndAccess` is never invoked after the
successful `StartAccess`, although the spec requires the pairing on every
exit path.  Evaluated at the failing input. -/
theorem c3_bug_eval :
    envC3.startAccessOk = true ∧
    (CopyDeckLinkFrameBytes envC3 16 zeroBuf).events.count Ev.startAccess = 1 ∧
    (CopyDeckLinkFrameBytes envC3 16 zeroBuf).events.count Ev.endAccess = 0 := by decide

/-! ## Claim C4 -/

/-- Claim C4 is false as stated: on a modern-only handle whose StartAccess
fails, the raw-offset fallback is still entered (the fallback at lines
355-362 is not gated by any capability query). -/
theorem c4_cex : Ev.rawFallbackEnter ∈ (CopyDeckLinkFrameBytes envC4 8 zeroBuf).events := by
  decide

/-- Claim C4 (amended): when the handle supports only the modern capability
and StartAccess fails, the raw-offset fallback is always attempted, and the
call returns Failure exactly when that fallback itself fails — because the
recovered pointer is rejected or at most half the requested bytes were
copied. -/
theorem c4_fallback (env : FrameEnv) (bs : Int) (d0 : Nat → Nat)
    (h1 : env.framePtrNull = false) (h2 : env.bufferNull = false) (h3 : 0 < bs)
    (h4 : env.qiUnknownOk = true) (h5 : env.metadataFaults = false)
    (hmod : env.qiVideoBuffer = true) (hsa : env.startAccessOk = false)
    (hleg : env.qiLegacy = false) :
    Ev.rawFallbackEnter ∈ (CopyDeckLinkFrameBytes env bs d0).events ∧
    ((CopyDeckLinkFrameBytes env bs d0).result = 0 ↔
      (ptrGood env = false ∨
        (CopyDeckLinkFrameBytes env bs d0).fallbackBytesCopied ≤ bs.toNat / 2)) := by
  have hm : modernSucceeds env = false := by simp [modernSucceeds, hsa]
  have hl : legacySucceeds env = false := by simp [legacySucceeds, hleg]
  rcases copy_cases env bs d0 with ⟨hg, -, -, -, -, -⟩ | ⟨hm', -, -, -, -, -⟩ |
    ⟨-, hl', -, -, -, -, -⟩ | ⟨-, -, hr, -, he, -, hbc⟩
  · exact absurd hg (fun hg => no_guard_fail env bs h1 h2 h3 h4 h5 hg)
  · exact absurd hm' (by rw [hm]; decide)
  · exact absurd hl' (by rw [hl]; decide)
  · constructor
    · rw [he]
      exact List.mem_append.mpr (Or.inr (fallbackPath_mem_enter env bs.toNat _))
    by_cases hp : ptrGood env = true
    case neg =>
      have hpb : ptrGood env = false := by simpa using hp
      obtain ⟨hfr, -, -, -, hfb⟩ := fbIn_bad env bs.toNat d0 hpb
      rw [hr, hfr]
      simp [hpb]
    obtain ⟨hfr, -, -, -, hfb⟩ := fbIn_good env bs.toNat d0 hp
    rw [hr, hfr, hbc, hfb]
    by_cases hhalf : fbBytes env bs.toNat ≤ bs.toNat / 2
    · rw [if_pos hhalf]
      simp [hhalf]
    · rw [if_neg hhalf]
      constructor
      · intro hcontra
        by_cases hc2 : fbCorrupt env bs.toNat
            (applyWrites (applyWrites d0 (modernPath env bs.toNat).writes)
              (legacyPath env bs.toNat).writes) = true
        · rw [if_pos hc2] at hcontra
          exact absurd hcontra (by decide)
        · rw [if_neg hc2] at hcontra
          exact absurd hcontra (by decide)
      · rintro (hpb | hhalf2)
        · exact absurd hp (by rw [hpb]; decide)
        · exact absurd hhalf2 hhalf

/-- Claim C4 (witness for the amended claim): modern-only handle, StartAccess
failing, null offset-280 pointer — the fallback is entered and the call
fails. -/
theorem c4_w :
    Ev.rawFallbackEnter ∈ (CopyDeckLinkFrameBytes envC4 16 zeroBuf).events ∧
    ((CopyDeckLinkFrameBytes envC4 16 zeroBuf).result = 0 ↔
      (ptrGood envC4 = false ∨
        (CopyDeckLinkFrameBytes envC4 16 zeroBuf).fallbackBytesCopied ≤ (16 : Int).toNat / 2)) :=
  c4_fallback envC4 16 zeroBuf rfl rfl (by decide) rfl rfl rfl rfl rfl

/-! ## Claim C5 -/

/-- Claim C5 (confirmed): in the raw-offset fallback's chunked copy, if the
copy of chunk `k` faults and every other chunk succeeds, then after the call
every byte of every other chunk holds the byte copied from the raw source,
every byte of chunk `k` holds the neutral UYVY black pattern
`0x80 0x10 0x80 0x10` (byte `0x80` at even offsets within the chunk, `0x10`
at odd ones), and the reported copied-byte count is the total size of the
successful chunks, i.e. `bufferSize` minus the size of chunk `k`. -/
theorem c5_chunk_recovery (env : FrameEnv) (bs : Int) (d0 : Nat → Nat) (k : Nat)
    (h1 : env.framePtrNull = false) (h2 : env.bufferNull = false) (h3 : 0 < bs)
    (h4 : env.qiUnknownOk = true) (h5 : env.metadataFaults = false)
    (hm : modernSucceeds env = false) (hl : legacySucceeds env = false)
    (hptr : ptrGood env = true) (hbulk : env.bulkCopyFaults = true)
    (hk : k < numChunks bs.toNat) (hkf : env.chunkFaults k = true)
    (ho : ∀ j, j < numChunks bs.toNat → j ≠ k → env.chunkFaults j = false) :
    (∀ j t, j < numChunks bs.toNat → j ≠ k → t < chunkLen bs.toNat j →
       applyWrites d0 (CopyDeckLinkFrameBytes env bs d0).writes (j * chunkSz + t)
         = env.rawSrc (j * chunkSz + t)) ∧
    (∀ t, t < chunkLen bs.toNat k →
       applyWrites d0 (CopyDeckLinkFrameBytes env bs d0).writes (k * chunkSz + t)
         = if t % 2 = 0 then 0x80 else 0x10) ∧
    (CopyDeckLinkFrameBytes env bs d0).fallbackBytesCopied
      = bs.toNat - chunkLen bs.toNat k := by
  rcases copy_cases env bs d0 with ⟨hg, -, -, -, -, -⟩ | ⟨hm', -, -, -, -, -⟩ |
    ⟨-, hl', -, -, -, -, -⟩ | ⟨-, -, -, hw, -, -, hbc⟩
  · exact absurd hg (fun hg => no_guard_fail env bs h1 h2 h3 h4 h5 hg)
  · exact absurd hm' (by rw [hm]; decide)
  · exact absurd hl' (by rw [hl]; decide)
  obtain ⟨-, hfw, -, -, hfb⟩ := fbIn_good env bs.toNat d0 hptr
  have hfbw : fbWrites env bs.toNat =
      copyWrites env.rawSrc 0 (min env.bulkFaultLen bs.toNat) ++ chunkedWrites env bs.toNat := by
    unfold fbWrites
    rw [if_pos hbulk]
  have hfbb : fbBytes env bs.toNat = chunkedBytesCopied env bs.toNat := by
    unfold fbBytes
    rw [if_pos hbulk]
  rw [hw, hfw, hfbw, hbc, hfb, hfbb]
  refine ⟨?_, ?_, ?_⟩
  · intro j t hj hjk ht
    simp only [applyWrites_append]
    rw [applyWrites_chunkedWrites env bs.toNat j t _ hj ht]
    exact applyWrites_chunkWrites_success env bs.toNat j t _ (ho j hj hjk) ht
  · intro t ht
    simp only [applyWrites_append]
    rw [applyWrites_chunkedWrites env bs.toNat k t _ hk ht]
    exact applyWrites_chunkWrites_fault env bs.toNat k t _ hkf ht
  · exact chunkedBytesCopied_single_fault env bs.toNat k hk hkf ho

/-- Claim C5 (witness): buffer of 131080 bytes (three chunks of sizes 65536,
65536, 8), bulk copy faulting, chunk 1 faulting. -/
theorem c5_w :
    (∀ j t, j < numChunks (131080 : Int).toNat → j ≠ 1 → t < chunkLen (131080 : Int).toNat j →
       applyWrites zeroBuf (CopyDeckLinkFrameBytes envC5 131080 zeroBuf).writes
         (j * chunkSz + t) = envC5.rawSrc (j * chunkSz + t)) ∧
    (∀ t, t < chunkLen (131080 : Int).toNat 1 →
       applyWrites zeroBuf (CopyDeckLinkFrameBytes envC5 131080 zeroBuf).writes
         (1 * chunkSz + t) = if t % 2 = 0 then 0x80 else 0x10) ∧
    (CopyDeckLinkFrameBytes envC5 131080 zeroBuf).fallbackBytesCopied
      = (131080 : Int).toNat - chunkLen (131080 : Int).toNat 1 :=
  c5_chunk_recovery envC5 131080 zeroBuf 1 (by decide) (by decide) (by decide) (by decide)
    (by decide) (by decide) (by decide) (by decide) (by decide) (by decide) (by decide)
    (by decide)

/-! ## Claim C6 -/

/-- Claim C6 (confirmed): when the raw-offset fallback recovers a null
pointer, or one outside the plausible address range
`[0x10000, 0x7FFF00000000)`, the call returns Failure and the fallback has
written nothing: the destination writes are exactly those of the earlier
(failed) modern and legacy attempts. -/
theorem c6_pointer_reject (env : FrameEnv) (bs : Int) (d0 : Nat → Nat)
    (h1 : env.framePtrNull = false) (h2 : env.bufferNull = false) (h3 : 0 < bs)
    (h4 : env.qiUnknownOk = true) (h5 : env.metadataFaults = false)
    (hm : modernSucceeds env = false) (hl : legacySucceeds env = false)
    (hbad : ptrGood env = false) :
    (CopyDeckLinkFrameBytes env bs d0).result = 0 ∧
    (CopyDeckLinkFrameBytes env bs d0).writes =
      (modernPath env bs.toNat).writes ++ (legacyPath env bs.toNat).writes := by
  rcases copy_cases env bs d0 with ⟨hg, -, -, -, -, -⟩ | ⟨hm', -, -, -, -, -⟩ |
    ⟨-, hl', -, -, -, -, -⟩ | ⟨-, -, hr, hw, -, -, -⟩
  · exact absurd hg (fun hg => no_guard_fail env bs h1 h2 h3 h4 h5 hg)
  · exact absurd hm' (by rw [hm]; decide)
  · exact absurd hl' (by rw [hl]; decide)
  obtain ⟨hfr, hfw, -, -, -⟩ := fbIn_bad env bs.toNat d0 hbad
  rw [hr, hfr, hw, hfw, List.append_nil]
  exact ⟨rfl, rfl⟩

/-- Claim C6 (witness): all capability paths absent and a null offset-280
pointer — the call fails having written nothing at all. -/
theorem c6_w :
    ptrGood baseEnv = false ∧
    (CopyDeckLinkFrameBytes baseEnv 8 zeroBuf).result = 0 ∧
    (CopyDeckLinkFrameBytes baseEnv 8 zeroBuf).writes =
      (modernPath baseEnv (8 : Int).toNat).writes
        ++ (legacyPath baseEnv (8 : Int).toNat).writes :=
  ⟨by decide, c6_pointer_reject baseEnv 8 zeroBuf (by decide) (by decide) (by decide)
    (by decide) (by decide) (by decide) (by decide) (by decide)⟩

/-! ## Claim C7 -/

theorem detector_not_in_paths (env : FrameEnv) (n : Nat)
    (h : Ev.detectorRun ∈ (modernPath env n).events ++ (legacyPath env n).events) : False := by
  rcases List.mem_append.mp h with h' | h'
  · rcases mem_modernPath_events env n _ h' with h'' | h'' <;> exact absurd h'' (by decide)
  · exact absurd (mem_legacyPath_events env n _ h') (by decide)

/-- Claim C7 is false as stated: the code gates the detector on
`bytesCopied > bufferSize / 2` (line 430) and fails on
`bytesCopied <= bufferSize / 2` (line 564), so a fallback call that copied
exactly half of the requested 131072 bytes returns Failure and the detector
does not run — while the claim says such a call is not a Failure on that
ground and is evaluated by the detector. -/
theorem c7_cex :
    (CopyDeckLinkFrameBytes envC7x 131072 zeroBuf).fallbackBytesCopied = 131072 / 2 ∧
    (CopyDeckLinkFrameBytes envC7x 131072 zeroBuf).result = 0 ∧
    Ev.detectorRun ∉ (CopyDeckLinkFrameBytes envC7x 131072 zeroBuf).events := by decide

/-- Claim C7 (amended): if the fallback copied at most half (integer
division) of the requested bytes the call returns Failure and the detector
does not run; the detector runs exactly when strictly more than half of the
requested bytes were copied. -/
theorem c7_half_gate (env : FrameEnv) (bs : Int) (d0 : Nat → Nat)
    (h1 : env.framePtrNull = false) (h2 : env.bufferNull = false) (h3 : 0 < bs)
    (h4 : env.qiUnknownOk = true) (h5 : env.metadataFaults = false)
    (hm : modernSucceeds env = false) (hl : legacySucceeds env = false)
    (hptr : ptrGood env = true) :
    ((CopyDeckLinkFrameBytes env bs d0).fallbackBytesCopied ≤ bs.toNat / 2 →
      (CopyDeckLinkFrameBytes env bs d0).result = 0 ∧
      Ev.detectorRun ∉ (CopyDeckLinkFrameBytes env bs d0).events) ∧
    (Ev.detectorRun ∈ (CopyDeckLinkFrameBytes env bs d0).events ↔
      bs.toNat / 2 < (CopyDeckLinkFrameBytes env bs d0).fallbackBytesCopied) := by
  rcases copy_cases env bs d0 with ⟨hg, -, -, -, -, -⟩ | ⟨hm', -, -, -, -, -⟩ |
    ⟨-, hl', -, -, -, -, -⟩ | ⟨-, -, hr, -, he, -, hbc⟩
  · exact absurd hg (fun hg => no_guard_fail env bs h1 h2 h3 h4 h5 hg)
  · exact absurd hm' (by rw [hm]; decide)
  · exact absurd hl' (by rw [hl]; decide)
  obtain ⟨hfr, -, hfe, -, hfb⟩ := fbIn_good env bs.toNat d0 hptr
  rw [hr, hfr, he, hfe, hbc, hfb]
  by_cases hhalf : bs.toNat / 2 < fbBytes env bs.toNat
  · rw [if_pos hhalf, if_neg (by omega)]
    refine ⟨fun hcontra => absurd hcontra (by omega), fun _ => hhalf, ?_⟩
    intro _
    exact List.mem_append.mpr (Or.inr (by decide))
  · rw [if_neg hhalf, if_pos (by omega)]
    have hnotin : Ev.detectorRun ∉
        (modernPath env bs.toNat).events ++ (legacyPath env bs.toNat).events ++
          ([Ev.addRef, Ev.rawFallbackEnter] ++ [] ++ [Ev.release]) := by
      intro hmem
      rcases List.mem_append.mp hmem with hmem | hmem
      · exact detector_not_in_paths env bs.toNat hmem
      · exact absurd hmem (by decide)
    exact ⟨fun _ => ⟨rfl, hnotin⟩, fun hmem => absurd hmem hnotin, fun hcontra => absurd hcontra hhalf⟩

/-- Claim C7 (witness for the amended claim): three chunks of which two
fault, so one third of the bytes were copied — the call fails and the
detector does not run. -/
theorem c7_w :
    ptrGood envC7w = true ∧
    (((CopyDeckLinkFrameBytes envC7w 196608 zeroBuf).fallbackBytesCopied
        ≤ (196608 : Int).toNat / 2 →
      (CopyDeckLinkFrameBytes envC7w 196608 zeroBuf).result = 0 ∧
      Ev.detectorRun ∉ (CopyDeckLinkFrameBytes envC7w 196608 zeroBuf).events) ∧
    (Ev.detectorRun ∈ (CopyDeckLinkFrameBytes envC7w 196608 zeroBuf).events ↔
      (196608 : Int).toNat / 2
        < (CopyDeckLinkFrameBytes envC7w 196608 zeroBuf).fallbackBytesCopied)) :=
  ⟨by decide, c7_half_gate envC7w 196608 zeroBuf (by decide) (by decide) (by decide)
    (by decide) (by decide) (by decide) (by decide) (by decide)⟩

/-! ## Claim C8 -/

/-- Claim C8 is false as stated: when the third accessor (row stride) faults,
`GetDeckLinkFrameInfo` returns 0 and contains the fault, but the width and
height output cells were already assigned before the fault (lines 584-585) —
the caller can observe partial metadata. -/
theorem c8_cex :
    (GetDeckLinkFrameInfo envC8 0 0 0 0).status = 0 ∧
    (GetDeckLinkFrameInfo envC8 0 0 0 0).width = 1920 ∧
    (GetDeckLinkFrameInfo envC8 0 0 0 0).height = 1080 ∧
    ¬ (GetDeckLinkFrameInfo envC8 0 0 0 0).width = 0 := by decide

/-- Claim C8 (amended): if any performed accessor call of
`GetDeckLinkFrameInfo` faults, the function returns failure status 0 and no
fault propagates, and the flags cell (assigned last) is never modified on a
faulting call.  Moreover the outputs are exactly characterised by the first
faulting accessor: every output cell from the faulting accessor onward is
unmodified, while each cell assigned before the fault holds its accessor's
value (its initial value if its out-pointer was null). -/
theorem c8_fault_status (env : InfoEnv) (w0 h0 rb0 f0 : Nat)
    (hfp : env.framePtrNull = false) (h : infoFaults env = true) :
    (GetDeckLinkFrameInfo env w0 h0 rb0 f0).status = 0 ∧
    (GetDeckLinkFrameInfo env w0 h0 rb0 f0).flags = f0 ∧
    ((env.widthNull = false ∧ env.widthFaults = true) →
      GetDeckLinkFrameInfo env w0 h0 rb0 f0 = ⟨0, w0, h0, rb0, f0⟩) ∧
    (¬ (env.widthNull = false ∧ env.widthFaults = true) →
     (env.heightNull = false ∧ env.heightFaults = true) →
      GetDeckLinkFrameInfo env w0 h0 rb0 f0
        = ⟨0, if env.widthNull then w0 else env.width, h0, rb0, f0⟩) ∧
    (¬ (env.widthNull = false ∧ env.widthFaults = true) →
     ¬ (env.heightNull = false ∧ env.heightFaults = true) →
     (env.rowBytesNull = false ∧ env.rowBytesFaults = true) →
      GetDeckLinkFrameInfo env w0 h0 rb0 f0
        = ⟨0, if env.widthNull then w0 else env.width,
           if env.heightNull then h0 else env.height, rb0, f0⟩) ∧
    (¬ (env.widthNull = false ∧ env.widthFaults = true) →
     ¬ (env.heightNull = false ∧ env.heightFaults = true) →
     ¬ (env.rowBytesNull = false ∧ env.rowBytesFaults = true) →
     (env.flagsNull = false ∧ env.flagsFaults = true) →
      GetDeckLinkFrameInfo env w0 h0 rb0 f0
        = ⟨0, if env.widthNull then w0 else env.width,
           if env.heightNull then h0 else env.height,
           if env.rowBytesNull then rb0 else env.rowBytes, f0⟩) := by
  have hsf : (GetDeckLinkFrameInfo env w0 h0 rb0 f0).status = 0 ∧
      (GetDeckLinkFrameInfo env w0 h0 rb0 f0).flags = f0 := by
    simp only [GetDeckLinkFrameInfo]
    by_cases ha : env.framePtrNull = true
    · rw [if_pos ha]
      exact ⟨rfl, rfl⟩
    rw [if_neg ha]
    by_cases hb : ¬ env.widthNull = true ∧ env.widthFaults = true
    · rw [if_pos hb]
      exact ⟨rfl, rfl⟩
    rw [if_neg hb]
    by_cases hc : ¬ env.heightNull = true ∧ env.heightFaults = true
    · rw [if_pos hc]
      exact ⟨rfl, rfl⟩
    rw [if_neg hc]
    by_cases hd : ¬ env.rowBytesNull = true ∧ env.rowBytesFaults = true
    · rw [if_pos hd]
      exact ⟨rfl, rfl⟩
    rw [if_neg hd]
    by_cases he : ¬ env.flagsNull = true ∧ env.flagsFaults = true
    · rw [if_pos he]
      exact ⟨rfl, rfl⟩
    exfalso
    simp only [infoFaults, Bool.or_eq_true, Bool.and_eq_true, Bool.not_eq_true'] at h
    push_neg at hb hc hd he
    simp only [Bool.not_eq_true] at hb hc hd he
    rcases h with ((⟨hn, hf⟩ | ⟨hn, hf⟩) | ⟨hn, hf⟩) | ⟨hn, hf⟩ <;> simp_all
  refine ⟨hsf.1, hsf.2, ?_, ?_, ?_, ?_⟩
  · rintro ⟨hn, hf⟩
    simp only [GetDeckLinkFrameInfo]
    rw [if_neg (by simp [hfp]), if_pos (by simp [hn, hf])]
  · intro hnw
    rintro ⟨hn, hf⟩
    simp only [GetDeckLinkFrameInfo]
    rw [if_neg (by simp [hfp]), if_neg (by simpa only [Bool.not_eq_true] using hnw),
      if_pos (by simp [hn, hf])]
  · intro hnw hnh
    rintro ⟨hn, hf⟩
    simp only [GetDeckLinkFrameInfo]
    rw [if_neg (by simp [hfp]), if_neg (by simpa only [Bool.not_eq_true] using hnw),
      if_neg (by simpa only [Bool.not_eq_true] using hnh), if_pos (by simp [hn, hf])]
  · intro hnw hnh hnr
    rintro ⟨hn, hf⟩
    simp only [GetDeckLinkFrameInfo]
    rw [if_neg (by simp [hfp]), if_neg (by simpa only [Bool.not_eq_true] using hnw),
      if_neg (by simpa only [Bool.not_eq_true] using hnh),
      if_neg (by simpa only [Bool.not_eq_true] using hnr), if_pos (by simp [hn, hf])]

/-- Claim C8 (witness for the amended claim): the height accessor faults —
status 0, and the outputs are exactly: width already holding its accessor
value, height, row stride and flags unmodified. -/
theorem c8_w :
    (GetDeckLinkFrameInfo envC8w 1 2 3 4).status = 0 ∧
    (GetDeckLinkFrameInfo envC8w 1 2 3 4).flags = 4 ∧
    GetDeckLinkFrameInfo envC8w 1 2 3 4
      = ⟨0, if envC8w.widthNull then 1 else envC8w.width, 2, 3, 4⟩ :=
  ⟨(c8_fault_status envC8w 1 2 3 4 (by decide) (by decide)).1,
   (c8_fault_status envC8w 1 2 3 4 (by decide) (by decide)).2.1,
   (c8_fault_status envC8w 1 2 3 4 (by decide) (by decide)).2.2.2.1 (by decide) (by decide)⟩

/-! ## Claim C9 -/

theorem fbIn_count (env : FrameEnv) (n : Nat) (d0 : Nat → Nat) (e : Ev)
    (h1 : e = Ev.addRef ∨ e = Ev.release) : (fbIn env n d0).events.count e = 1 :=
  fallbackPath_count env n _ e h1

/-- Claim C9 (confirmed): whenever the raw-offset fallback is entered, the
temporary AddRef it takes on the frame handle is matched by exactly one
Release in the call's event trace, on every exit path of the fallback (null
pointer, range rejection, and normal completion). -/
theorem c9_refcount (env : FrameEnv) (bs : Int) (d0 : Nat → Nat)
    (h : Ev.rawFallbackEnter ∈ (CopyDeckLinkFrameBytes env bs d0).events) :
    (CopyDeckLinkFrameBytes env bs d0).events.count Ev.addRef = 1 ∧
    (CopyDeckLinkFrameBytes env bs d0).events.count Ev.release = 1 := by
  rcases copy_cases env bs d0 with ⟨-, -, -, he, -, -⟩ | ⟨-, -, -, he, -, -⟩ |
    ⟨-, -, -, -, he, -, -⟩ | ⟨-, -, -, -, he, -, -⟩ <;> rw [he] at h ⊢
  · simp at h
  · rcases mem_modernPath_events env bs.toNat _ h with h' | h' <;> exact absurd h' (by decide)
  · rcases List.mem_append.mp h with h' | h'
    · rcases mem_modernPath_events env bs.toNat _ h' with h'' | h'' <;>
        exact absurd h'' (by decide)
    · exact absurd (mem_legacyPath_events env bs.toNat _ h') (by decide)
  · refine ⟨?_, ?_⟩ <;>
      rw [List.count_append, List.count_append,
        modernPath_count_zero env bs.toNat _ (by decide) (by decide),
        legacyPath_count_zero env bs.toNat _ (by decide)]
    · rw [fbIn_count env bs.toNat d0 Ev.addRef (Or.inl rfl)]
    · rw [fbIn_count env bs.toNat d0 Ev.release (Or.inr rfl)]

/-- Claim C9 (witness): all paths absent, null offset-280 pointer — the
fallback is entered and AddRef/Release balance at one each. -/
theorem c9_w :
    Ev.rawFallbackEnter ∈ (CopyDeckLinkFrameBytes baseEnv 16 zeroBuf).events ∧
    (CopyDeckLinkFrameBytes baseEnv 16 zeroBuf).events.count Ev.addRef = 1 ∧
    (CopyDeckLinkFrameBytes baseEnv 16 zeroBuf).events.count Ev.release = 1 :=
  ⟨by decide, c9_refcount baseEnv 16 zeroBuf (by decide)⟩

/-! ## Claim C10 -/

set_option maxRecDepth 4000 in
/-- Claim C10 is false as stated: (a) with a 6-byte request whose single
(6-byte) chunk faults, the neutral-fill loop writes destination offset 7,
past both the chunk's end and the buffer's 6 bytes (the loop writes 4 bytes
per step while `thisChunk = 6` is not a multiple of 4); (b) with a 6-byte
request under full-HD geometry the detector runs (6 > 6/2) and its sampled
reads go far beyond the 6 copied bytes. -/
theorem c10_cex :
    7 ∈ (CopyDeckLinkFrameBytes envC10a 6 zeroBuf).writes.map Prod.fst ∧
    (∃ r ∈ (CopyDeckLinkFrameBytes envC10b 6 zeroBuf).reads.take 8, 6 ≤ r) := by decide

/-- Claim C10 (amended): every destination write of a call stays within the
first `4*⌈bufferSize/4⌉` bytes — the neutral-fill loop may overrun a final
faulted chunk whose length is not a multiple of 4 by up to 3 bytes, and all
other writes stay within `bufferSize`; and under the geometry assumptions
`width ≥ 3`, `rowBytes ≥ 2*width`, `height ≥ 1` and
`height*rowBytes ≤ bufferSize`, every offset the corruption detector reads
lies within `bufferSize`. -/
theorem c10_access_bounds (env : FrameEnv) (bs : Int) (d0 : Nat → Nat)
    (hw : 3 ≤ env.width) (hrb : 2 * env.width ≤ env.rowBytes) (hh : 1 ≤ env.height)
    (hn : env.height * env.rowBytes ≤ bs.toNat) :
    (∀ o ∈ (CopyDeckLinkFrameBytes env bs d0).writes.map Prod.fst,
       o < 4 * ((bs.toNat + 3) / 4)) ∧
    (∀ r ∈ (CopyDeckLinkFrameBytes env bs d0).reads, r < bs.toNat) := by
  have hwb : ∀ o ∈ ((modernPath env bs.toNat).writes
      ++ (legacyPath env bs.toNat).writes).map Prod.fst, o < 4 * ((bs.toNat + 3) / 4) := by
    intro o ho
    rw [List.map_append] at ho
    rcases List.mem_append.mp ho with ho | ho
    · have := modernPath_writes_bound env _ o ho
      omega
    · have := legacyPath_writes_bound env _ o ho
      omega
  rcases copy_cases env bs d0 with ⟨-, -, hwq, -, hrd, -⟩ | ⟨-, -, hwq, -, hrd, -⟩ |
    ⟨-, -, -, hwq, -, hrd, -⟩ | ⟨-, -, -, hwq, -, hrd, -⟩
  · rw [hwq, hrd]
    exact ⟨by simp, by simp⟩
  · rw [hwq, hrd]
    refine ⟨fun o ho => ?_, by simp⟩
    have := modernPath_writes_bound env _ o ho
    omega
  · rw [hwq, hrd]
    exact ⟨hwb, by simp⟩
  · rw [hwq, hrd]
    by_cases hp : ptrGood env = true
    · obtain ⟨-, hfw, -, hfrd, -⟩ := fbIn_good env bs.toNat d0 hp
      rw [hfw, hfrd]
      constructor
      · intro o ho
        rw [List.map_append] at ho
        rcases List.mem_append.mp ho with ho | ho
        · exact hwb o ho
        · exact fbWrites_bound env bs.toNat o ho
      · intro r hr
        split_ifs at hr
        · exact detReadOffsets_bound env.width env.height env.rowBytes bs.toNat r hw hrb hh hn hr
        · simp at hr
    · obtain ⟨-, hfw, -, hfrd, -⟩ := fbIn_bad env bs.toNat d0 (by simpa using hp)
      rw [hfw, hfrd, List.append_nil]
      exact ⟨hwb, by simp⟩

/-- Claim C10 (witness for the amended claim): the baseline environment with
a 16-byte request satisfying the geometry assumptions. -/
theorem c10_w :
    3 ≤ baseEnv.width ∧ 2 * baseEnv.width ≤ baseEnv.rowBytes ∧ 1 ≤ baseEnv.height ∧
    baseEnv.height * baseEnv.rowBytes ≤ (16 : Int).toNat ∧
    ((∀ o ∈ (CopyDeckLinkFrameBytes baseEnv 16 zeroBuf).writes.map Prod.fst,
        o < 4 * (((16 : Int).toNat + 3) / 4)) ∧
     (∀ r ∈ (CopyDeckLinkFrameBytes baseEnv 16 zeroBuf).reads, r < (16 : Int).toNat)) :=
  ⟨by decide, by decide, by decide, by decide,
   c10_access_bounds baseEnv 16 zeroBuf (by decide) (by decide) (by decide) (by decide)⟩

end DeckLink
